import Mathlib

/-!
Verification of the ergo condition-constrained distribution fitting engine.

This file gives a shallow embedding of the distribution, condition and
optimizer modules of the repository (src/ergo/distributions/histogram.py,
conditions.py, truncated_logistic_mixture.py, location_scale_family.py,
src/ergo/conditions/mean.py and src/ergo/logistic.py), together with
theorems checking the specified properties.  Python floats are modelled as
real numbers, extended with the IEEE infinities where an embedded code path
can receive them, and with a NaN marker where the embedded code inspects
NaN-ness.  Modules of the repository that are referenced but absent from
src (the Scale value object and the Logistic mixture component class) are
modelled from the specification and are marked as such.
-/

namespace Ergo

noncomputable section

/-- Modelled from the spec: the Scale value object (ergo/scale.py is not under
src).  A linear bidirectional transform between the true domain
[low, high] and the normalized working domain [0, 1], per section 4.1 of
the spec. -/
structure Scale where
  low : ℝ
  high : ℝ

/-- Modelled from the spec: normalize_point maps a true value into [0,1]. -/
def Scale.normalize_point (s : Scale) (x : ℝ) : ℝ :=
  (x - s.low) / (s.high - s.low)

/-- Modelled from the spec: denormalize_point is the exact inverse of
normalize_point. -/
def Scale.denormalize_point (s : Scale) (u : ℝ) : ℝ :=
  s.low + u * (s.high - s.low)

/-- Modelled from the spec: the range attribute of a Scale, used by
LSDistribution.normalize and denormalize. -/
def Scale.range (s : Scale) : ℝ := s.high - s.low

/-- A Python float argument that may be one of the IEEE infinities, as the
min and max of an IntervalCondition default to.  NaN does not flow through
the embedded cdf and loss paths. -/
inductive ER where
  | ninf
  | fin (x : ℝ)
  | pinf

/-- Comparison of an extended float against a finite float, as numpy
evaluates the mask entry x less-or-equal b. -/
def ER.leReal : ER → ℝ → Prop
  | ER.ninf, _ => True
  | ER.fin a, b => a ≤ b
  | ER.pinf, _ => False

instance : ∀ (x : ER) (b : ℝ), Decidable (ER.leReal x b)
  | ER.ninf, _ => isTrue trivial
  | ER.fin a, b => inferInstanceAs (Decidable (a ≤ b))
  | ER.pinf, _ => isFalse id

/-- IEEE comparison of two extended floats, used by the max-versus-min check
in IntervalCondition.__init__. -/
def ER.le : ER → ER → Prop
  | ER.ninf, _ => True
  | ER.fin a, ER.fin b => a ≤ b
  | ER.fin _, ER.pinf => True
  | ER.fin _, ER.ninf => False
  | ER.pinf, ER.pinf => True
  | ER.pinf, ER.fin _ => False
  | ER.pinf, ER.ninf => False

instance : ∀ (x y : ER), Decidable (ER.le x y)
  | ER.ninf, ER.ninf => isTrue trivial
  | ER.ninf, ER.fin _ => isTrue trivial
  | ER.ninf, ER.pinf => isTrue trivial
  | ER.fin a, ER.fin b => inferInstanceAs (Decidable (a ≤ b))
  | ER.fin _, ER.pinf => isTrue trivial
  | ER.fin _, ER.ninf => isFalse id
  | ER.pinf, ER.pinf => isTrue trivial
  | ER.pinf, ER.fin _ => isFalse id
  | ER.pinf, ER.ninf => isFalse id

/-- numpy cumsum on a flat array. -/
def cumsum (l : List ℝ) : List ℝ := (l.scanl (· + ·) 0).tail

/-- np.linspace(0, 1, n). -/
def linspace01 (n : Nat) : List ℝ :=
  (List.range n).map (fun i => if n ≤ 1 then 0 else (i : ℝ) / ((n : ℝ) - 1))

/-- The index of the first element of bins that x is below or equal to, if
any: the index np.argmax picks on the boolean mask bins >= x. -/
def firstGE (x : ER) : List ℝ → Option Nat
  | [] => none
  | b :: bs => if x.leReal b then some 0 else (firstGE x bs).map (· + 1)

/-- np.argmax on the mask bins >= x: the first true index, or 0 when the mask
is everywhere false. -/
def argmaxGE (x : ER) (bins : List ℝ) : Nat := (firstGE x bins).getD 0

/-- Scale.normalize_point extended to infinite inputs: for a scale with
high above low, the linear map sends each infinity to itself. -/
def Scale.normE (s : Scale) : ER → ER
  | ER.ninf => ER.ninf
  | ER.fin x => ER.fin (s.normalize_point x)
  | ER.pinf => ER.pinf

/-- HistogramDist state (src/ergo/distributions/histogram.py): the per-bin
log probabilities together with the arrays derived in __init__. -/
structure Hist where
  logps : List ℝ
  ps : List ℝ
  cum_ps : List ℝ
  normed_bins : List ℝ
  size : Nat
  scale : Scale

/-- HistogramDist.__init__ on the default path (no bin information given):
ps = exp(logps), cum_ps = cumsum(ps), normed_bins = linspace(0, 1, size). -/
def histFromLogps (logps : List ℝ) (scale : Scale) : Hist :=
  { logps := logps
    ps := logps.map Real.exp
    cum_ps := cumsum (logps.map Real.exp)
    normed_bins := linspace01 logps.length
    size := logps.length
    scale := scale }

/-- HistogramDist.cdf: cum_ps[np.argmax(normed_bins >= normalize_point(x))].
When x normalizes above every bin, the all-false argmax falls back to
index 0. -/
def Hist.cdf (d : Hist) (x : ER) : ℝ :=
  d.cum_ps.getD (argmaxGE (d.scale.normE x) d.normed_bins) 0

/-- jax.nn.log_softmax on a flat array. -/
def logSoftmax (xs : List ℝ) : List ℝ :=
  xs.map (fun x => x - Real.log ((xs.map Real.exp).sum))

/-- HistogramDist.from_params: logps = log_softmax(params), with the default
Scale(0, 1) and linearly spaced bins. -/
def Hist.fromParams (params : List ℝ) : Hist :=
  histFromLogps (logSoftmax params) ⟨0, 1⟩

/-- PercentileCondition (src/ergo/distributions/conditions.py). -/
structure PercentileCond where
  percentile : ℝ
  value : ℝ
  weight : ℝ

/-- PercentileCondition.__init__: raises ValueError unless the percentile
lies in [0, 1]; none models the raised error. -/
def PercentileCond.init (p v w : ℝ) : Option PercentileCond :=
  if 0 ≤ p ∧ p ≤ 1 then some ⟨p, v, w⟩ else none

/-- PercentileCondition.loss against a histogram distribution. -/
def PercentileCond.loss (c : PercentileCond) (d : Hist) : ℝ :=
  c.weight * (d.cdf (ER.fin c.value) - c.percentile) ^ 2

/-- IntervalCondition (src/ergo/distributions/conditions.py); min and max
are floats whose defaults are the infinities. -/
structure IntervalCond where
  p : ℝ
  min : ER
  max : ER
  weight : ℝ

/-- IntervalCondition.__init__: raises ValueError when max is below or equal
to min; none models the raised error. -/
def IntervalCond.init (p : ℝ) (mn mx : ER) (w : ℝ) : Option IntervalCond :=
  if ER.le mx mn then none else some ⟨p, mn, mx, w⟩

/-- IntervalCondition.loss as executed: the guards compare min and max with
the identity operator against freshly boxed infinity objects, so the guards
are always true and both cdf calls happen, infinite endpoint or not. -/
def IntervalCond.loss (c : IntervalCond) (d : Hist) : ℝ :=
  c.weight * ((d.cdf c.max - d.cdf c.min) - c.p) ^ 2

/-- IntervalCondition loss following the words of the spec: an open bound is
treated as a cdf value of 0 or 1, without evaluating the cdf at the
infinite endpoint. -/
def IntervalCond.lossSpec (c : IntervalCond) (d : Hist) : ℝ :=
  (match c.max with | ER.pinf => (1 : ℝ) | t => d.cdf t) -
      (match c.min with | ER.ninf => (0 : ℝ) | t => d.cdf t) - c.p
    |> (fun actual => c.weight * actual ^ 2)

/-- A destructured condition, that is one (class token, numeric params) pair
as fed to static_loss.  The structure and destructure methods for
conditions are modelled from the spec (section 4.3: structure is the exact
inverse of destructure), so a pair is represented by the condition value
that structure rebuilds from it. -/
inductive Cond where
  | perc (c : PercentileCond)
  | interv (c : IntervalCond)

/-- Condition.loss dispatched over the embedded condition variants. -/
def Cond.loss : Cond → Hist → ℝ
  | Cond.perc c, d => c.loss d
  | Cond.interv c, d => c.loss d

/-- static_condition_loss (src/ergo/distributions/histogram.py): rebuild the
distribution from the parameters, rebuild the condition from its
destructured form, and multiply its loss by 100. -/
def staticCondLoss (distParams : List ℝ) (c : Cond) : ℝ :=
  c.loss (Hist.fromParams distParams) * 100

/-- static_loss (src/ergo/distributions/histogram.py): the sum of
static_condition_loss over the destructured conditions. -/
def staticLoss (distParams : List ℝ) (cs : List Cond) : ℝ :=
  (cs.map (staticCondLoss distParams)).sum

/-- One Python value inside the tuple produced by HistogramDist.destructure
or consumed by HistogramDist.structure. -/
inductive DItem where
  | classTok
  | histPayload (logps ps cum_ps normed_bins : List ℝ) (size : Nat)
  | scaleTok
  | scaleNums (low high : ℝ)
  | arr (xs : List ℝ)
  | natv (n : Nat)

/-- HistogramDist.destructure: the tuple (HistogramDist, (logps, ps, cum_ps,
normed_bins, size), *scale.destructure()) — four positional values once
the scale pair is splatted.  Scale.destructure is modelled from the spec
as the pair (class token, (low, high)). -/
def destructureH (d : Hist) : List DItem :=
  [DItem.classTok,
   DItem.histPayload d.logps d.ps d.cum_ps d.normed_bins d.size,
   DItem.scaleTok,
   DItem.scaleNums d.scale.low d.scale.high]

/-- HistogramDist.structure: reads params[0] .. params[6] as logps, ps,
cum_ps, normed_bins, size, scale class and scale arguments for its
direct_init dictionary.  An out-of-range index (a Python IndexError) or a
value of the wrong shape yields none. -/
def structureH (params : List DItem) : Option Hist :=
  match params[0]?, params[1]?, params[2]?, params[3]?, params[4]?,
      params[5]?, params[6]? with
  | some (DItem.arr logps), some (DItem.arr ps), some (DItem.arr cum),
      some (DItem.arr bins), some (DItem.natv n), some DItem.scaleTok,
      some (DItem.scaleNums lo hi) =>
    some ⟨logps, ps, cum, bins, n, ⟨lo, hi⟩⟩
  | _, _, _, _, _, _, _ => none

/-- LSDistribution state after __init__
(src/ergo/distributions/location_scale_family.py). -/
structure LSDist where
  loc : ℝ
  scale : ℝ

/-- LSDistribution.__init__: the scale attribute is clamped by
np.max([scale, 0.0000001]). -/
def LSDist.init (loc scale : ℝ) : LSDist :=
  ⟨loc, max scale 0.0000001⟩

/-- LSDistribution.normalize: rescale loc and scale onto [0,1]; the result
is built through __init__ again, hence clamped again. -/
def LSDist.normalize (d : LSDist) (smin smax : ℝ) : LSDist :=
  LSDist.init ((Scale.mk smin smax).normalize_point d.loc)
    (d.scale / (Scale.mk smin smax).range)

/-- LSDistribution.denormalize, the inverse rescaling, also built through
__init__. -/
def LSDist.denormalize (d : LSDist) (smin smax : ℝ) : LSDist :=
  LSDist.init ((Scale.mk smin smax).denormalize_point d.loc)
    (d.scale * (Scale.mk smin smax).range)

/-- MeanCondition (src/ergo/conditions/mean.py). -/
structure MeanCond where
  mean : ℝ
  weight : ℝ

/-- MeanCondition.normalize: a new MeanCondition with the mean normalized
and the weight untouched. -/
def MeanCond.normalize (c : MeanCond) (smin smax : ℝ) : MeanCond :=
  ⟨(Scale.mk smin smax).normalize_point c.mean, c.weight⟩

/-- MeanCondition.denormalize. -/
def MeanCond.denormalize (c : MeanCond) (smin smax : ℝ) : MeanCond :=
  ⟨(Scale.mk smin smax).denormalize_point c.mean, c.weight⟩

/-- LogisticParams (src/ergo/logistic.py). -/
structure LogisticParams where
  loc : ℝ
  scale : ℝ

/-- fit_single_scipy after the external scipy maximum-likelihood fit has
returned the raw pair (loc, scale): both estimates are clamped into fixed
ranges before being returned. -/
def fitSingleScipy (loc scale : ℝ) : LogisticParams :=
  ⟨min (max loc (-0.1565)) 1.1565, min (max scale 0.02) 10⟩

/-- Modelled from the spec: the Logistic mixture component class
(src/ergo/distributions/logistic.py is not under src).  Section 4.4 of the
spec says a location-scale member clamps its scale parameter to a small
positive floor, matching LSDistribution.__init__ in src. -/
structure LogisticC where
  loc : ℝ
  scale : ℝ

/-- Modelled from the spec: the Logistic component constructor, with the
scale clamp of a location-scale member. -/
def LogisticC.init (loc scale : ℝ) : LogisticC :=
  ⟨loc, max scale 0.0000001⟩

/-- scipy.special.expit, the standard logistic sigmoid. -/
def expit (t : ℝ) : ℝ := 1 / (1 + Real.exp (-t))

/-- jax.nn.softmax on a flat array. -/
def softmax (xs : List ℝ) : List ℝ :=
  xs.map (fun x => Real.exp x / (xs.map Real.exp).sum)

/-- opt_params.reshape((-1, 3)) for a flat array whose length is a multiple
of three. -/
def reshape3 : List ℝ → List (ℝ × ℝ × ℝ)
  | a :: b :: c :: rest => (a, b, c) :: reshape3 rest
  | _ => []

/-- TruncatedLogisticMixture after construction
(src/ergo/distributions/truncated_logistic_mixture.py). -/
structure TLM where
  components : List LogisticC
  probs : List ℝ
  floor : ℝ
  ceiling : ℝ

/-- TruncatedLogisticMixture.from_params: locations squashed through expit
into a widened band, scales through absolute value, mixing weights through
softmax; each component is built by the Logistic constructor. -/
def TLM.fromParams (floor ceiling : ℝ) (opt : List ℝ) : TLM :=
  let locFloor := floor + (ceiling - floor) * (-2)
  let locCeiling := floor + (ceiling - floor) * 3
  let sp := reshape3 opt
  let locs := sp.map (fun t => locFloor + expit t.1 * (locCeiling - locFloor))
  let scales := sp.map (fun t => |t.2.1|)
  { components := List.zipWith LogisticC.init locs scales
    probs := softmax (sp.map (fun t => t.2.2))
    floor := floor
    ceiling := ceiling }

/-- A numpy floating point value in the fit_mixture loop: a real number or
NaN.  NaN propagates through arithmetic and compares false. -/
inductive F where
  | num (x : ℝ)
  | nan

/-- np.isnan. -/
def F.isNan : F → Bool
  | F.nan => true
  | F.num _ => false

def F.add : F → F → F
  | F.num a, F.num b => F.num (a + b)
  | _, _ => F.nan

def F.mul : F → F → F
  | F.num a, F.num b => F.num (a * b)
  | _, _ => F.nan

def F.sub : F → F → F
  | F.num a, F.num b => F.num (a - b)
  | _, _ => F.nan

/-- Division; division by zero is collapsed to NaN here (the embedded
theorems never take this branch). -/
def F.div : F → F → F
  | F.num a, F.num b => if b = 0 then F.nan else F.num (a / b)
  | _, _ => F.nan

def F.exp : F → F
  | F.num a => F.num (Real.exp a)
  | F.nan => F.nan

/-- Logarithm; a non-positive argument is collapsed to NaN (the embedded
theorems only take the positive branch). -/
def F.log : F → F
  | F.num a => if 0 < a then F.num (Real.log a) else F.nan
  | F.nan => F.nan

/-- Square root; numpy yields NaN on a negative argument. -/
def F.sqrt : F → F
  | F.num a => if a < 0 then F.nan else F.num (Real.sqrt a)
  | F.nan => F.nan

/-- Strict comparison: any comparison against NaN is false. -/
def F.lt : F → F → Bool
  | F.num a, F.num b => decide (a < b)
  | _, _ => false

def F.listSum (l : List F) : F := l.foldl F.add (F.num 0)

/-- One row of the fit_mixture components matrix: (location, scale, weight). -/
abbrev Comp := F × F × F

/-- np.any(np.isnan(mat)) over a components or gradients matrix. -/
def anyNanRows (cs : List Comp) : Bool :=
  cs.any (fun t => t.1.isNan || t.2.1.isNan || t.2.2.isNan)

/-- jax.experimental.optimizers.clip_grads: scale every entry down by
max_norm over the l2 norm when the l2 norm is not below max_norm. -/
def clipGrads (gs : List Comp) (maxNorm : ℝ) : List Comp :=
  let entries := gs.flatMap (fun t => [t.1, t.2.1, t.2.2])
  let norm := F.sqrt (F.listSum (entries.map (fun x => F.mul x x)))
  let adjust := fun (g : F) =>
    if F.lt norm (F.num maxNorm) then g
    else F.mul g (F.div (F.num maxNorm) norm)
  gs.map (fun t => (adjust t.1, adjust t.2.1, adjust t.2.2))

/-- components + step_size * grads, elementwise with step size 0.01. -/
def updateComps (cs gs : List Comp) : List Comp :=
  List.zipWith
    (fun c g =>
      (F.add c.1 (F.mul (F.num 0.01) g.1),
       F.add c.2.1 (F.mul (F.num 0.01) g.2.1),
       F.add c.2.2 (F.mul (F.num 0.01) g.2.2)))
    cs gs

/-- The fit_mixture optimization loop (src/ergo/logistic.py): up to 1000
gradient steps, breaking out of the loop as soon as the clipped gradients
or the current components contain NaN.  The jax gradient of mixture_logpdf
is abstracted as the function g, and the periodic score logging has no
effect on the result. -/
def loopFit (g : List Comp → List Comp) : Nat → List Comp → List Comp
  | 0, cs => cs
  | n + 1, cs =>
    let gr := clipGrads (g cs) 1
    if anyNanRows gr || anyNanRows cs then cs
    else loopFit g n (updateComps cs gr)

/-- LogisticMixtureParams as produced by structure_mixture_params
(src/ergo/logistic.py). -/
structure MixParams where
  components : List (F × F)
  probs : List F

/-- structure_mixture_params: probabilities through exp of log_softmax of
the weight column, component parameters as the (loc, scale) columns. -/
def structureMixtureParams (cs : List Comp) : MixParams :=
  let ws := cs.map (fun t => t.2.2)
  { components := cs.map (fun t => (t.1, t.2.1))
    probs :=
      (ws.map (fun w => F.sub w (F.log (F.listSum (ws.map F.exp))))).map F.exp }

/-- fit_mixture with the random initial components and the jax gradient
function taken as inputs: its body contains no raise statement, so it
always returns the structured current components. -/
def fitMixture (g : List Comp → List Comp) (comps0 : List Comp) : MixParams :=
  structureMixtureParams (loopFit g 1000 comps0)

/-- The histogram built by the fitting engine itself from the parameter
vector [0, 0]: a normalized two-bin histogram with ps = [1/2, 1/2] on
Scale(0, 1). -/
def histFit2 : Hist := Hist.fromParams [0, 0]

/-- The default IntervalCondition(p=0.3): min = -inf, max = +inf, weight 1. -/
def condC4 : IntervalCond := ⟨3 / 10, ER.ninf, ER.pinf, 1⟩

/-- A destructured PercentileCondition(percentile=0, value=1/2, weight=1). -/
def condC3 : Cond := Cond.perc ⟨0, 1 / 2, 1⟩

/-- A gradient oracle that reports a NaN gradient entry. -/
def gNanC7 : List Comp → List Comp := fun _ => [(F.nan, F.num 0, F.num 0)]

/-- Finite initial components for the fit_mixture loop. -/
def csFinC7 : List Comp := [(F.num 1, F.num 1, F.num (-1))]

/-- A gradient oracle that reports an all-zero finite gradient. -/
def gZeroC7 : List Comp → List Comp := fun _ => [(F.num 0, F.num 0, F.num 0)]

/-- Initial components whose location entry is already NaN. -/
def csNanC7 : List Comp := [(F.nan, F.num 1, F.num 0)]

/-! ### Evaluation lemmas for the concrete two-bin fitted histogram -/

lemma exp_neg_log_two : Real.exp (-Real.log (1 + 1)) = 1 / 2 := by
  rw [Real.exp_neg, Real.exp_log] <;> norm_num

lemma histFit2_cum : histFit2.cum_ps = [1 / 2, 1] := by
  simp [histFit2, Hist.fromParams, histFromLogps, logSoftmax, cumsum,
    List.scanl, exp_neg_log_two]
  norm_num

lemma histFit2_bins : histFit2.normed_bins = [0, 1] := by
  simp [histFit2, Hist.fromParams, histFromLogps, logSoftmax, linspace01,
    List.range_succ]
  norm_num

lemma histFit2_scale : histFit2.scale = ⟨0, 1⟩ := rfl

lemma histFit2_cdf_one : histFit2.cdf (ER.fin 1) = 1 := by
  rw [Hist.cdf, histFit2_cum, histFit2_bins, histFit2_scale]
  simp [Scale.normE, Scale.normalize_point, argmaxGE, firstGE, ER.leReal]
  norm_num

lemma histFit2_cdf_two : histFit2.cdf (ER.fin 2) = 1 / 2 := by
  rw [Hist.cdf, histFit2_cum, histFit2_bins, histFit2_scale]
  simp [Scale.normE, Scale.normalize_point, argmaxGE, firstGE, ER.leReal]
  norm_num

lemma histFit2_cdf_half : histFit2.cdf (ER.fin (1 / 2)) = 1 := by
  rw [Hist.cdf, histFit2_cum, histFit2_bins, histFit2_scale]
  simp [Scale.normE, Scale.normalize_point, argmaxGE, firstGE, ER.leReal]
  norm_num

lemma histFit2_cdf_ninf : histFit2.cdf ER.ninf = 1 / 2 := by
  rw [Hist.cdf, histFit2_cum, histFit2_bins, histFit2_scale]
  simp [Scale.normE, argmaxGE, firstGE, ER.leReal]

lemma histFit2_cdf_pinf : histFit2.cdf ER.pinf = 1 / 2 := by
  rw [Hist.cdf, histFit2_cum, histFit2_bins, histFit2_scale]
  simp [Scale.normE, argmaxGE, firstGE, ER.leReal]

/-! ### List arithmetic helpers -/

lemma list_sum_map_div (l : List ℝ) (f : ℝ → ℝ) (c : ℝ) :
    (l.map (fun x => f x / c)).sum = (l.map f).sum / c := by
  induction l with
  | nil => simp
  | cons a t ih => simp [ih, add_div]

lemma sum_map_exp_nonneg (l : List ℝ) : 0 ≤ (l.map Real.exp).sum := by
  induction l with
  | nil => simp
  | cons a t ih =>
    simp only [List.map_cons, List.sum_cons]
    linarith [Real.exp_pos a]

lemma sum_map_exp_pos (l : List ℝ) (hl : l ≠ []) : 0 < (l.map Real.exp).sum := by
  cases l with
  | nil => exact absurd rfl hl
  | cons a t =>
    simp only [List.map_cons, List.sum_cons]
    linarith [Real.exp_pos a, sum_map_exp_nonneg t]

lemma softmax_nonneg (l : List ℝ) : ∀ q ∈ softmax l, 0 ≤ q := by
  intro q hq
  obtain ⟨x, _, rfl⟩ := List.mem_map.mp hq
  exact div_nonneg (Real.exp_pos x).le (sum_map_exp_nonneg l)

lemma softmax_sum_one (l : List ℝ) (hl : l ≠ []) : (softmax l).sum = 1 := by
  unfold softmax
  rw [list_sum_map_div]
  exact div_self (sum_map_exp_pos l hl).ne'

lemma zipWith_map_same {α β γ δ : Type} (f : β → γ → δ) (g : α → β) (h : α → γ)
    (l : List α) :
    List.zipWith f (l.map g) (l.map h) = l.map (fun x => f (g x) (h x)) := by
  induction l with
  | nil => rfl
  | cons a t ih => simp [ih]

lemma reshape3_ne_nil (l : List ℝ) (h2 : l.length % 3 = 0) (h3 : 0 < l.length) :
    reshape3 l ≠ [] := by
  rcases l with _ | ⟨a, _ | ⟨b, _ | ⟨c, t⟩⟩⟩
  · simp at h3
  · simp at h2
  · simp at h2
  · simp [reshape3]

/-! ### Claim theorems -/

/-- C6 amended: for floor below ceiling and a nonempty raw parameter array
whose length is a multiple of 3, from_params gives each component the
scale attribute max(abs(raw), 0.0000001) — the absolute value clamped by
the component constructor floor — and mixing probabilities through softmax,
nonnegative and summing to 1. -/
theorem C6_from_params_scales_and_probs (fl ce : ℝ) (opt : List ℝ)
    (h1 : fl < ce) (h2 : opt.length % 3 = 0) (h3 : 0 < opt.length) :
    (TLM.fromParams fl ce opt).components.map (fun c => c.scale)
        = (reshape3 opt).map (fun t => max |t.2.1| 0.0000001) ∧
    (∀ q ∈ (TLM.fromParams fl ce opt).probs, 0 ≤ q) ∧
    (TLM.fromParams fl ce opt).probs.sum = 1 := by
  refine ⟨?_, ?_, ?_⟩
  · simp only [TLM.fromParams]
    rw [zipWith_map_same, List.map_map]
    rfl
  · intro q hq
    simp only [TLM.fromParams] at hq
    exact softmax_nonneg _ q hq
  · simp only [TLM.fromParams]
    apply softmax_sum_one
    have hne := reshape3_ne_nil opt h2 h3
    rcases hsp : reshape3 opt with _ | ⟨a, t⟩
    · exact absurd hsp hne
    · simp

/-- C6 witness: the amended invariants hold at floor 0, ceiling 1 and raw
parameters [0, 0, 0]. -/
theorem C6_from_params_witness :
    (0 : ℝ) < 1 ∧ ([0, 0, 0] : List ℝ).length % 3 = 0 ∧
    0 < ([0, 0, 0] : List ℝ).length ∧
    ((TLM.fromParams 0 1 [0, 0, 0]).components.map (fun c => c.scale)
        = (reshape3 [0, 0, 0]).map (fun t => max |t.2.1| 0.0000001) ∧
     (∀ q ∈ (TLM.fromParams 0 1 [0, 0, 0]).probs, 0 ≤ q) ∧
     (TLM.fromParams 0 1 [0, 0, 0]).probs.sum = 1) :=
  ⟨by norm_num, by rfl, by simp,
   C6_from_params_scales_and_probs 0 1 [0, 0, 0] (by norm_num) (by rfl) (by simp)⟩

/-- C6 counterexample: the claim as stated fails twice.  At raw parameters
[0, 0, 0] the single component has scale attribute 0.0000001, not the
absolute value 0 of the raw parameter; and at the empty raw array the
mixing probabilities sum to 0, not 1. -/
theorem C6_scale_clamp_counterexample :
    ((TLM.fromParams 0 1 [0, 0, 0]).components.getD 0 ⟨0, 0⟩).scale ≠ |(0 : ℝ)| ∧
    (TLM.fromParams 0 1 []).probs.sum ≠ 1 := by
  constructor
  · simp only [TLM.fromParams, reshape3]
    simp [List.getD, LogisticC.init]
    norm_num [max_def]
  · simp [TLM.fromParams, reshape3, softmax]

lemma loopFit_break (g : List Comp → List Comp) (n : Nat) (cs : List Comp)
    (h : (anyNanRows (clipGrads (g cs) 1) || anyNanRows cs) = true) :
    loopFit g (n + 1) cs = cs := by
  simp [loopFit, h]

/-- C7 amended: when the clipped gradients at the current components, or the
components themselves, contain NaN, fit_mixture abandons the optimization
loop at once and returns structure_mixture_params of those components —
it returns normally (its body has no raise) instead of failing with a
numeric error, and only NaN is checked, via np.isnan. -/
theorem C7_fit_mixture_returns_on_nan (g : List Comp → List Comp)
    (cs : List Comp)
    (h : (anyNanRows (clipGrads (g cs) 1) || anyNanRows cs) = true) :
    fitMixture g cs = structureMixtureParams cs := by
  unfold fitMixture
  rw [show (1000 : Nat) = 999 + 1 from rfl, loopFit_break g 999 cs h]

/-- C7 witness: a gradient oracle returning a NaN entry on finite initial
components triggers the abandon-and-return behaviour. -/
theorem C7_fit_mixture_returns_witness :
    (anyNanRows (clipGrads (gNanC7 csFinC7) 1) || anyNanRows csFinC7) = true ∧
    fitMixture gNanC7 csFinC7 = structureMixtureParams csFinC7 :=
  ⟨by rfl, C7_fit_mixture_returns_on_nan gNanC7 csFinC7 (by rfl)⟩

/-- C7 counterexample: starting from components whose location is already
NaN, with a finite zero gradient, fit_mixture returns a LogisticMixtureParams
value whose first component location is NaN — it does not fail with a
numeric error and it does return a result built from non-finite
parameters. -/
theorem C7_fit_mixture_returns_nan_params :
    fitMixture gZeroC7 csNanC7 = ⟨[(F.nan, F.num 1)], [F.num 1]⟩ := by
  have hbreak :
      (anyNanRows (clipGrads (gZeroC7 csNanC7) 1) || anyNanRows csNanC7)
        = true := by
    rw [Bool.or_eq_true]
    right
    rfl
  unfold fitMixture
  rw [show (1000 : Nat) = 999 + 1 from rfl, loopFit_break gZeroC7 999 csNanC7 hbreak]
  simp [structureMixtureParams, csNanC7, F.exp, F.log, F.listSum, F.add, F.sub,
    Real.exp_zero, Real.log_one]

/-- C9 amended: MeanCondition normalize and denormalize keep the variant and
the weight and the round trip restores the mean exactly; the LSDistribution
round trip restores loc always, and restores scale provided the normalized
scale stays at or above the constructor clamp floor 0.0000001. -/
theorem C9_normalize_denormalize_roundtrip (smin smax loc s m w : ℝ)
    (h : smin < smax)
    (hs : 0.0000001 ≤ (LSDist.init loc s).scale / (smax - smin)) :
    (((LSDist.init loc s).normalize smin smax).denormalize smin smax).loc
        = (LSDist.init loc s).loc ∧
    (((LSDist.init loc s).normalize smin smax).denormalize smin smax).scale
        = (LSDist.init loc s).scale ∧
    ((MeanCond.mk m w).normalize smin smax).weight = w ∧
    (((MeanCond.mk m w).normalize smin smax).denormalize smin smax).weight = w ∧
    (((MeanCond.mk m w).normalize smin smax).denormalize smin smax).mean = m := by
  have hR : smax - smin ≠ 0 := sub_ne_zero.mpr h.ne'
  refine ⟨?_, ?_, rfl, rfl, ?_⟩
  · simp only [LSDist.normalize, LSDist.denormalize, LSDist.init,
      Scale.normalize_point, Scale.denormalize_point, Scale.range]
    rw [div_mul_cancel₀ _ hR]
    ring
  · simp only [LSDist.init, Scale.range] at hs
    simp only [LSDist.normalize, LSDist.denormalize, LSDist.init, Scale.range]
    rw [max_eq_left hs, div_mul_cancel₀ _ hR,
      max_eq_left (le_max_right s 0.0000001)]
  · simp only [MeanCond.normalize, MeanCond.denormalize,
      Scale.normalize_point, Scale.denormalize_point]
    rw [div_mul_cancel₀ _ hR]
    ring

/-- C9 witness: the round trips at bounds (0, 1), an LSDistribution with
loc 5 and scale 3, and a MeanCondition with mean 2 and weight 7. -/
theorem C9_roundtrip_witness :
    (0 : ℝ) < 1 ∧
    (0.0000001 : ℝ) ≤ (LSDist.init 5 3).scale / (1 - 0) ∧
    ((((LSDist.init 5 3).normalize 0 1).denormalize 0 1).loc
        = (LSDist.init 5 3).loc ∧
     (((LSDist.init 5 3).normalize 0 1).denormalize 0 1).scale
        = (LSDist.init 5 3).scale ∧
     ((MeanCond.mk 2 7).normalize 0 1).weight = 7 ∧
     (((MeanCond.mk 2 7).normalize 0 1).denormalize 0 1).weight = 7 ∧
     (((MeanCond.mk 2 7).normalize 0 1).denormalize 0 1).mean = 2) := by
  have hhs : (0.0000001 : ℝ) ≤ (LSDist.init 5 3).scale / (1 - 0) := by
    show (0.0000001 : ℝ) ≤ max 3 0.0000001 / (1 - 0)
    rw [max_eq_left (by norm_num)]
    norm_num
  exact ⟨by norm_num, hhs,
    C9_normalize_denormalize_roundtrip 0 1 5 3 2 7 (by norm_num) hhs⟩

/-- C9 counterexample: with true range 0 .. 1000000000 and an LSDistribution
of scale 0.0000001, the normalized scale hits the constructor clamp floor,
and the denormalized result has scale 100 instead of 0.0000001: the round
trip does not restore the scale. -/
theorem C9_roundtrip_counterexample :
    (((LSDist.init 0 0.0000001).normalize 0 1000000000).denormalize
        0 1000000000).scale ≠ (LSDist.init 0 0.0000001).scale := by
  simp only [LSDist.normalize, LSDist.denormalize, LSDist.init, Scale.range,
    Scale.normalize_point, Scale.denormalize_point]
  norm_num [max_def]

/-- C1: the claimed cdf monotonicity fails on HistogramDist.  For the
normalized two-bin histogram that from_params builds from [0, 0], the cdf
is 1 at the upper boundary but drops to 1/2 just above it, because the
argmax over an all-false mask falls back to bin index 0. -/
theorem C1_hist_cdf_monotonicity_violation :
    histFit2.cdf (ER.fin 1) = 1 ∧ histFit2.cdf (ER.fin 2) = 1 / 2 ∧
    ¬(histFit2.cdf (ER.fin 1) ≤ histFit2.cdf (ER.fin 2)) := by
  refine ⟨histFit2_cdf_one, histFit2_cdf_two, ?_⟩
  rw [histFit2_cdf_one, histFit2_cdf_two]
  norm_num

/-- C2: the claimed structure-destructure round trip fails on HistogramDist:
destructure emits four positional values while structure reads seven, so
reconstructing from the destructured tuple errors (an index out of range)
instead of returning a value equal to the original. -/
theorem C2_hist_structure_destructure_fails (d : Hist) :
    structureH (destructureH d) = none := rfl

/-- C2 witness: the round trip errors on the concrete fitted two-bin
histogram. -/
theorem C2_hist_structure_destructure_fails_witness :
    structureH (destructureH histFit2) = none :=
  C2_hist_structure_destructure_fails histFit2

/-- C4: on the default IntervalCondition(p=0.3), whose min and max are the
infinities, the loss as executed evaluates the cdf at both infinite
endpoints (the identity-comparison guards are always true); on a two-bin
histogram both cdf calls return cum_ps[0] = 1/2, giving loss 0.09, while
the loss the spec words describe gives 0.49. -/
theorem C4_interval_loss_evaluates_infinite_cdf :
    condC4.loss histFit2 = 9 / 100 ∧ condC4.lossSpec histFit2 = 49 / 100 ∧
    condC4.loss histFit2 ≠ condC4.lossSpec histFit2 := by
  have h1 : condC4.loss histFit2 = 9 / 100 := by
    simp [IntervalCond.loss, condC4, histFit2_cdf_pinf, histFit2_cdf_ninf]
    norm_num
  have h2 : condC4.lossSpec histFit2 = 49 / 100 := by
    simp [IntervalCond.lossSpec, condC4]
    norm_num
  refine ⟨h1, h2, ?_⟩
  rw [h1, h2]
  norm_num

lemma condC3_loss_eval : Cond.loss condC3 (Hist.fromParams [0, 0]) = 1 := by
  show Cond.loss condC3 histFit2 = 1
  simp only [condC3, Cond.loss, PercentileCond.loss]
  rw [histFit2_cdf_half]
  norm_num

/-- C3 counterexample: for the single destructured condition
PercentileCondition(percentile=0, value=1/2, weight=1) and parameter
vector [0, 0], static_loss returns 100 while the claimed sum of weighted
condition losses is 1; the two differ. -/
theorem C3_static_loss_counterexample :
    staticLoss [0, 0] [condC3] = 100 ∧
    ([condC3].map (fun c => Cond.loss c (Hist.fromParams [0, 0]))).sum = 1 ∧
    staticLoss [0, 0] [condC3] ≠
      ([condC3].map (fun c => Cond.loss c (Hist.fromParams [0, 0]))).sum := by
  have h1 : staticLoss [0, 0] [condC3] = 100 := by
    simp [staticLoss, staticCondLoss, condC3_loss_eval]
  have h2 :
      ([condC3].map (fun c => Cond.loss c (Hist.fromParams [0, 0]))).sum = 1 := by
    simp [condC3_loss_eval]
  refine ⟨h1, h2, ?_⟩
  rw [h1, h2]
  norm_num

/-- C3 amended: static_loss equals 100 times the sum over the destructured
conditions of the weighted condition losses evaluated on the distribution
rebuilt from the parameters (static_condition_loss multiplies each
condition loss by 100). -/
theorem C3_static_loss_is_scaled_sum (dp : List ℝ) (cs : List Cond) :
    staticLoss dp cs
      = 100 * (cs.map (fun c => Cond.loss c (Hist.fromParams dp))).sum := by
  induction cs with
  | nil => simp [staticLoss]
  | cons c t ih =>
    simp only [staticLoss, List.map_cons, List.sum_cons] at ih ⊢
    rw [ih, staticCondLoss]
    ring

/-- C5: PercentileCondition construction errors exactly when the percentile
is outside [0, 1], IntervalCondition construction errors exactly when max
is below or equal to min, and every successfully constructed condition
satisfies its constraint (validation is eager, at construction). -/
theorem C5_constructor_validation (p v w q : ℝ) (mn mx : ER) :
    (PercentileCond.init p v w = none ↔ (p < 0 ∨ 1 < p)) ∧
    (∀ c, PercentileCond.init p v w = some c →
      0 ≤ c.percentile ∧ c.percentile ≤ 1) ∧
    (IntervalCond.init q mn mx w = none ↔ ER.le mx mn) ∧
    (∀ c, IntervalCond.init q mn mx w = some c → ¬ ER.le c.max c.min) := by
  refine ⟨?_, ?_, ?_, ?_⟩
  · unfold PercentileCond.init
    split
    · simp only [reduceCtorEq, false_iff]
      push_neg
      constructor <;> linarith [And.left ‹0 ≤ p ∧ p ≤ 1›, And.right ‹0 ≤ p ∧ p ≤ 1›]
    · simp only [true_iff]
      rcases not_and_or.mp ‹¬(0 ≤ p ∧ p ≤ 1)› with h | h
      · exact Or.inl (lt_of_not_le h)
      · exact Or.inr (lt_of_not_le h)
  · intro c hc
    unfold PercentileCond.init at hc
    split at hc
    · cases hc
      exact ‹0 ≤ p ∧ p ≤ 1›
    · exact absurd hc (by simp)
  · unfold IntervalCond.init
    split
    · simpa using ‹ER.le mx mn›
    · simpa using ‹¬ ER.le mx mn›
  · intro c hc
    unfold IntervalCond.init at hc
    split at hc
    · exact absurd hc (by simp)
    · cases hc
      exact ‹¬ ER.le mx mn›

/-- C5 witness: a percentile of 2 is rejected at construction, while an
interval with min below max is accepted and stores fields satisfying the
constraint. -/
theorem C5_constructor_validation_witness :
    PercentileCond.init 2 0 1 = none ∧
    (∀ c, IntervalCond.init (1 / 2) ER.ninf (ER.fin 1) 1 = some c →
      ¬ ER.le c.max c.min) :=
  ⟨(C5_constructor_validation 2 0 1 (1 / 2) ER.ninf (ER.fin 1)).1.mpr
      (Or.inr (by norm_num)),
   (C5_constructor_validation 2 0 1 (1 / 2) ER.ninf (ER.fin 1)).2.2.2⟩

/-- C8: for every location and scale argument, the LSDistribution
constructor clamps the scale attribute to at least 0.0000001, so it is
never zero. -/
theorem C8_lsd_scale_floor (loc s : ℝ) :
    0.0000001 ≤ (LSDist.init loc s).scale ∧ (LSDist.init loc s).scale ≠ 0 := by
  constructor
  · exact le_max_right _ _
  · exact (lt_of_lt_of_le (by norm_num) (le_max_right s 0.0000001)).ne'

/-- C10: whatever loc and scale the external scipy maximum-likelihood fit
returns, fit_single_scipy clamps them so that the result satisfies
0.02 <= scale <= 10 and -0.1565 <= loc <= 1.1565. -/
theorem C10_fit_single_clamped (loc s : ℝ) :
    0.02 ≤ (fitSingleScipy loc s).scale ∧ (fitSingleScipy loc s).scale ≤ 10 ∧
    -0.1565 ≤ (fitSingleScipy loc s).loc ∧ (fitSingleScipy loc s).loc ≤ 1.1565 := by
  refine ⟨?_, ?_, ?_, ?_⟩
  · exact le_min (le_max_right _ _) (by norm_num)
  · exact min_le_right _ _
  · exact le_min (le_max_right _ _) (by norm_num)
  · exact min_le_right _ _

end

end Ergo
